import Mathlib

/-!
Verification of the PixelStorm-Server room simulation engine and matchmaking
queue against its natural-language specification.

The definitions below are a shallow embedding of the Go source:
  internal/models (entity.go, room.go)   - data model,
  internal/game/room.go                  - Room, AddPlayer, updateEntities,
                                           ShouldCleanup, assignTeam,
  internal/game/battle.go                - detectCollisions, handleCollision,
                                           broadcastCollisions,
  internal/game/server.go + websocket.go - connection registry, sendMessage,
                                           broadcastMessage, closeConnection,
  internal/match/service.go              - matchmaking queues, processMatching,
                                           getPlayersNeededForMode.

Modelling conventions:
  - float64 becomes the rationals; machine timestamps become rational seconds
    passed in explicitly (the Go code reads the wall clock); the Go test
    sqrt(dx*dx+dy*dy) < R compares two nonnegative reals, so it is embedded as
    the equivalent dx*dx+dy*dy < R*R, avoiding square roots;
  - a Go map id -> entity together with the pointer graph is embedded as a list
    of entities carrying their ids; the snapshot order of map iteration is the
    list order (theorems quantify over it); pointer mutation becomes an
    in-place, by-id update of the first entity with that id, which coincides
    with the pointer semantics because map keys are the entity ids;
  - the random spawn point generator is an oracle parameter (entity id to
    position); the outbound websocket channel of capacity 256 is a list plus
    its capacity bound.
-/

namespace PixelStorm

/-- Two dimensional vector with rational coordinates (models models.Vector2D
over float64). -/
structure Vector2D where
  x : ℚ
  y : ℚ
deriving DecidableEq, Repr

/-- models.GameMode is a Go string type; the four declared constants follow. -/
abbrev GameMode := String

/-- models.DeathMatch -/
def DeathMatch : GameMode := "death_match"

/-- models.TeamDeathMatch -/
def TeamDeathMatch : GameMode := "team_death_match"

/-- models.CapturePoint -/
def CapturePoint : GameMode := "capture_point"

/-- models.FlagCapture -/
def FlagCapture : GameMode := "flag_capture"

/-- models.RoomStatus (waiting, playing, ended). -/
inductive RoomStatus where
  | waiting
  | playing
  | ended
deriving DecidableEq, Repr

/-- models.Team (int constants TeamNone = 0, TeamRed = 1, TeamBlue = 2). -/
inductive Team where
  | none
  | red
  | blue
deriving DecidableEq, Repr

/-- models.PlayerEntity.  The BaseEntity fields id, position, rotation and
velocity are inlined; the Go type tag is the constructor of Entity below;
the CreatedAt wall-clock field is not used by any of the embedded code and is
omitted. -/
structure PlayerEntity where
  id : String
  position : Vector2D
  rotation : ℚ
  velocity : Vector2D
  playerID : Int
  characterID : Int
  team : Team
  health : Int
  maxHealth : Int
  isAlive : Bool
  respawnTime : Int
  skillCooldowns : List (Int × ℚ)
  kills : Int
  deaths : Int
  assists : Int
deriving DecidableEq, Repr

/-- models.ProjectileEntity with the BaseEntity fields inlined. -/
structure ProjectileEntity where
  id : String
  position : Vector2D
  rotation : ℚ
  velocity : Vector2D
  ownerID : String
  skillID : Int
  damage : Int
  lifeTime : ℚ
  hitEntities : List String
deriving DecidableEq, Repr

/-- models.EffectEntity with the BaseEntity fields inlined. -/
structure EffectEntity where
  id : String
  position : Vector2D
  rotation : ℚ
  velocity : Vector2D
  effectType : String
  duration : ℚ
  radius : ℚ
  ownerID : String
deriving DecidableEq, Repr

/-- models.Entity: the closed tagged variant over the entity kinds that the
room code constructs and dispatches on (the update and collision switches
handle exactly the player and projectile variants; effects fall through
unchanged). -/
inductive Entity where
  | player : PlayerEntity → Entity
  | projectile : ProjectileEntity → Entity
  | effect : EffectEntity → Entity
deriving DecidableEq, Repr

/-- Entity.GetID. -/
def entityId : Entity → String
  | .player p => p.id
  | .projectile q => q.id
  | .effect f => f.id

/-- game.PlayerState: one roster entry of a room.  The Connection pointer is
the connection id, the Entity pointer is the entity id (the entity itself
lives in the room entity mapping); LastInput is unused by the embedded code. -/
structure PlayerState where
  connID : String
  entityID : String
  ready : Bool
deriving DecidableEq, Repr

/-- game.Room.  Wall-clock fields (lastActivity, endedAt) are rational
seconds; createdAt, startedAt, privateRoom, password and lastFrameTime are not
read by any embedded operation and are omitted. -/
structure Room where
  id : String
  name : String
  mode : GameMode
  status : RoomStatus
  maxPlayers : Nat
  mapID : Int
  timeLimit : Int
  scoreLimit : Int
  friendlyFire : Bool
  players : List PlayerState
  entities : List Entity
  frameID : Int
  scores : List (Int × Int)
  lastActivity : ℚ
  endedAt : ℚ
deriving DecidableEq, Repr

/-- Look an entity up by id: the first entity of the list whose id matches
(Go map access r.entities[id]; ids are the map keys). -/
def findEntity (es : List Entity) (i : String) : Option Entity :=
  es.find? (fun e => entityId e = i)

/-- Replace the first entity with the given id by the image under f
(pointer mutation of the object stored under that map key). -/
def updateEntity : List Entity → String → (Entity → Entity) → List Entity
  | [], _, _ => []
  | e :: es, i, f =>
      if entityId e = i then f e :: es else e :: updateEntity es i f

/-- Go map increment r.scores[pid]++ : a missing key reads as 0, so the first
entry with the key is bumped, and an absent key is inserted as 1. -/
def bumpScore : List (Int × Int) → Int → List (Int × Int)
  | [], pid => [(pid, 1)]
  | (k, v) :: rest, pid =>
      if k = pid then (k, v + 1) :: rest else (k, v) :: bumpScore rest pid

/-- Go conversion int(x) for float64 x: truncation toward zero.  A rational
is stored in lowest terms, so truncated division of numerator by denominator
is exactly the truncation of the rational. -/
def truncToZero (q : ℚ) : Int :=
  Int.tdiv q.num q.den

/-- game.getRandomSpawnPosition returns a fresh random point in
[0,1000) x [0,1000); the generator is abstracted as an oracle from the entity
id being respawned to the chosen point (SpawnOracle). -/
abbrev SpawnOracle := String → Vector2D

/-- The spawn point produced by getRandomSpawnPosition is valid when it lies
in the 1000 x 1000 play field that rand.Float64()*1000 ranges over. -/
def validSpawn (v : Vector2D) : Prop :=
  0 ≤ v.x ∧ v.x < 1000 ∧ 0 ≤ v.y ∧ v.y < 1000

/-- One cooldown map entry after a tick: room.go updateEntities subtracts
deltaTime from every strictly positive cooldown and deletes it once the
result is at most zero; entries that are already nonpositive are kept
untouched. -/
def tickCooldown (dt : ℚ) (c : Int × ℚ) : Option (Int × ℚ) :=
  if c.2 > 0 then
    let c2 := c.2 - dt
    if c2 ≤ 0 then none else some (c.1, c2)
  else some c

/-- room.go updateEntities, player arm of the type switch: an alive player
advances by velocity times deltaTime and runs cooldowns; a dead player has
int(deltaTime) subtracted from its respawn countdown and, once the countdown
is at most zero, is revived at a fresh spawn point with full health and zero
velocity. -/
def tickPlayer (spawn : SpawnOracle) (dt : ℚ) (p : PlayerEntity) : PlayerEntity :=
  if p.isAlive then
    { p with
      position := ⟨p.position.x + p.velocity.x * dt, p.position.y + p.velocity.y * dt⟩
      skillCooldowns := p.skillCooldowns.filterMap (tickCooldown dt) }
  else
    if p.respawnTime - truncToZero dt ≤ 0 then
      { p with
        respawnTime := p.respawnTime - truncToZero dt
        isAlive := true
        health := p.maxHealth
        position := spawn p.id
        velocity := ⟨0, 0⟩ }
    else { p with respawnTime := p.respawnTime - truncToZero dt }

/-- room.go updateEntities, one entity of the mapping: players are updated by
tickPlayer and never removed; projectiles advance, age by deltaTime and are
deleted from the mapping once their remaining lifetime is at most zero; the
type switch has no arm for effects, which therefore pass through unchanged. -/
def stepEntity (spawn : SpawnOracle) (dt : ℚ) : Entity → Option Entity
  | .player p => some (.player (tickPlayer spawn dt p))
  | .projectile q =>
      if q.lifeTime - dt ≤ 0 then none
      else some (.projectile
        { q with
          position := ⟨q.position.x + q.velocity.x * dt, q.position.y + q.velocity.y * dt⟩
          lifeTime := q.lifeTime - dt })
  | .effect f => some (.effect f)

/-- room.go updateEntities over the whole entity mapping. -/
def updateEntities (spawn : SpawnOracle) (dt : ℚ) (es : List Entity) : List Entity :=
  es.filterMap (stepEntity spawn dt)

/-- room.go IsEmpty: player count equals zero. -/
def isEmpty (r : Room) : Bool :=
  r.players.length = 0

/-- room.go ShouldCleanup at wall-clock time now (seconds): an empty room
answers whether more than five minutes passed since its last activity and
returns that answer immediately; only a nonempty room falls through to the
ended check of more than two minutes since endedAt. -/
def shouldCleanup (r : Room) (now : ℚ) : Bool :=
  if isEmpty r then
    decide (now - r.lastActivity > 5 * 60)
  else if r.status = RoomStatus.ended then
    decide (now - r.endedAt > 2 * 60)
  else
    false

/-- room.go assignTeam: modes other than TeamDeathMatch and FlagCapture get
TeamNone; otherwise the red and blue roster counts are compared and the
smaller side wins, red on a tie.  The roster loop reads ps.Entity.Team, i.e.
the team of the entity the roster entry points at. -/
def countTeam (r : Room) (t : Team) : Nat :=
  r.players.countP (fun ps =>
    match findEntity r.entities ps.entityID with
    | some (.player p) => p.team = t
    | _ => false)

/-- room.go assignTeam. -/
def assignTeam (r : Room) : Team :=
  if r.mode ≠ TeamDeathMatch ∧ r.mode ≠ FlagCapture then
    Team.none
  else
    let redCount := countTeam r Team.red
    let blueCount := countTeam r Team.blue
    if redCount ≤ blueCount then Team.red else Team.blue

/-- The two error returns of room.go AddPlayer. -/
inductive AddPlayerError where
  | roomFull
  | roomClosed
deriving DecidableEq, Repr

/-- room.go AddPlayer mutates the room and returns an error value; the pair
mirrors that: on error the room comes back untouched.  The fresh entity uuid
and the random spawn point are parameters, now is the wall clock.  The roster
insert r.players[conn.ID] = playerState is an append, which matches the Go
map insert exactly when the connection id is not already a roster key (the
freshness hypotheses of the theorems). -/
def addPlayer (r : Room) (connID : String) (playerID : Int) (characterID : Int)
    (entityID : String) (spawnPos : Vector2D) (now : ℚ) :
    Room × Option AddPlayerError :=
  if r.players.length ≥ r.maxPlayers then
    (r, some AddPlayerError.roomFull)
  else if r.status ≠ RoomStatus.waiting then
    (r, some AddPlayerError.roomClosed)
  else
    let playerEntity : PlayerEntity :=
      { id := entityID
        position := spawnPos
        rotation := 0
        velocity := ⟨0, 0⟩
        playerID := playerID
        characterID := characterID
        team := assignTeam r
        health := 100
        maxHealth := 100
        isAlive := true
        respawnTime := 0
        skillCooldowns := []
        kills := 0
        deaths := 0
        assists := 0 }
    let playerState : PlayerState :=
      { connID := connID, entityID := entityID, ready := false }
    ({ r with
        players := r.players ++ [playerState]
        entities := r.entities ++ [.player playerEntity]
        lastActivity := now },
     Option.none)

/-- match.MatchRequest. -/
structure MatchRequest where
  playerID : Int
  characterID : Int
  gameMode : GameMode
  timestamp : ℚ
  sessionID : String
deriving DecidableEq, Repr

/-- match/service.go getPlayersNeededForMode. -/
def getPlayersNeededForMode (mode : GameMode) : Nat :=
  if mode = DeathMatch then 4
  else if mode = TeamDeathMatch then 6
  else if mode = CapturePoint then 8
  else if mode = FlagCapture then 6
  else 4

/-- The arguments of the single gameServer.CreateRoom call that one matching
pass issues for a mode (name omitted: it is a timestamp string). -/
structure RoomCreationRequest where
  mode : GameMode
  maxPlayers : Nat
  mapID : Int
deriving DecidableEq, Repr

/-- match/service.go processMatching, body of the per-mode loop: a queue
shorter than the required player count is skipped untouched; otherwise one
room is created (server.go CreateRoom always returns a nil error, so the
failure branch is dead) and the first playersNeeded requests are popped in
FIFO order, the rest remaining queued. -/
def processMatchingForMode (mode : GameMode) (queue : List MatchRequest) :
    List MatchRequest × Option (RoomCreationRequest × List MatchRequest) :=
  let playersNeeded := getPlayersNeededForMode mode
  if queue.length < playersNeeded then
    (queue, Option.none)
  else
    (queue.drop playersNeeded,
     some (⟨mode, playersNeeded, 1⟩, queue.take playersNeeded))

/-- battle.go playerRadius. -/
def playerRadius : ℚ := 20

/-- battle.go projectileRadius. -/
def projectileRadius : ℚ := 10

/-- models.CollisionInfo as recorded by detectCollisions: EntityA is the
projectile id, EntityB the player id, Position the midpoint of the two
centers.  The Normal field divides by the euclidean distance (a square root)
and the Time field reads the wall clock; neither is read by any embedded code
or claim, so both are omitted. -/
structure CollisionInfo where
  entityA : String
  entityB : String
  position : Vector2D
deriving DecidableEq, Repr

/-- The mutable state threaded through one detectCollisions pass: the entity
mapping and the score map (mutated through pointers in Go) and the collision
list accumulated for the frame broadcast. -/
structure PassState where
  entities : List Entity
  scores : List (Int × Int)
  collisions : List CollisionInfo
deriving DecidableEq, Repr

/-- Apply a function to the player payload, leaving other variants alone. -/
def mapPlayer (f : PlayerEntity → PlayerEntity) : Entity → Entity
  | .player p => .player (f p)
  | e => e

/-- battle.go handleCollision, damage section: health is decremented by the
projectile damage and, if the result is nonpositive, clamped to zero with the
player marked dead and the respawn countdown set to 5 seconds. -/
def damagedPlayer (pl : PlayerEntity) (damage : Int) : PlayerEntity :=
  if pl.health - damage ≤ 0 then
    { pl with health := 0, isAlive := false, respawnTime := 5 }
  else
    { pl with health := pl.health - damage }

/-- battle.go handleCollision: the player id is appended to the projectile
hit list, damage is applied, and if the player died the kill statistics are
updated: the projectile owner (when its id resolves to a player entity) gets
a kill and a room score point provided a roster entry points at it, and the
victim gets a death provided a roster entry points at it.  broadcastKill is an
empty stub in the source. -/
def handleCollision (roster : List PlayerState) (st : PassState)
    (pr : ProjectileEntity) (pl : PlayerEntity) : PassState :=
  let pr2 := { pr with hitEntities := pr.hitEntities ++ [pl.id] }
  let es1 := updateEntity st.entities pr.id (fun _ => .projectile pr2)
  let es2 := updateEntity es1 pl.id (fun _ => .player (damagedPlayer pl pr.damage))
  if pl.health - pr.damage ≤ 0 then
    if pr.ownerID ≠ "" then
      match findEntity es2 pr.ownerID with
      | some (.player owner) =>
          let es3 :=
            if roster.any (fun ps => ps.entityID == owner.id) then
              updateEntity es2 owner.id (mapPlayer fun o => { o with kills := o.kills + 1 })
            else es2
          let sc :=
            if roster.any (fun ps => ps.entityID == owner.id) then
              bumpScore st.scores owner.playerID
            else st.scores
          let es4 :=
            if roster.any (fun ps => ps.entityID == pl.id) then
              updateEntity es3 pl.id (mapPlayer fun v => { v with deaths := v.deaths + 1 })
            else es3
          { st with entities := es4, scores := sc }
      | _ => { st with entities := es2 }
    else { st with entities := es2 }
  else { st with entities := es2 }

/-- battle.go detectCollisions, classification of an unordered entity pair:
a candidate is one projectile and one player, in either order. -/
def resolvePair : Entity → Entity → Option (ProjectileEntity × PlayerEntity)
  | .projectile pr, .player pl => some (pr, pl)
  | .player pl, .projectile pr => some (pr, pl)
  | _, _ => Option.none

/-- battle.go detectCollisions, friendly fire test: the owner id (when
nonempty) is resolved in the entity mapping; if it is a player on the same
team as the target, the team is not TeamNone and friendly fire is disabled,
the pair is skipped. -/
def isFriendlyFireBlocked (es : List Entity) (friendlyFire : Bool)
    (pr : ProjectileEntity) (pl : PlayerEntity) : Bool :=
  if pr.ownerID ≠ "" then
    match findEntity es pr.ownerID with
    | some (.player owner) =>
        owner.team == pl.team && !(owner.team == Team.none) && !friendlyFire
    | _ => false
  else false

/-- battle.go detectCollisions, body of the double loop for the snapshot pair
with ids iA and iB: the current entities under those ids are classified; a
projectile-player pair with the player alive is skipped when the player is
already in the hit list or blocked as friendly fire; otherwise the squared
distance of centers is compared against the squared radius sum (the source
compares the euclidean distance with the radius sum, which is equivalent),
and on a hit the collision is recorded and handleCollision runs. -/
def pairStep (friendlyFire : Bool) (roster : List PlayerState)
    (st : PassState) (iA iB : String) : PassState :=
  match findEntity st.entities iA, findEntity st.entities iB with
  | some eA, some eB =>
      match resolvePair eA eB with
      | some (pr, pl) =>
          if pl.isAlive then
            if pl.id ∈ pr.hitEntities then st
            else if isFriendlyFireBlocked st.entities friendlyFire pr pl then st
            else
              let dx := pr.position.x - pl.position.x
              let dy := pr.position.y - pl.position.y
              let radiusSum := projectileRadius + playerRadius
              if dx * dx + dy * dy < radiusSum * radiusSum then
                let collision : CollisionInfo :=
                  { entityA := pr.id
                    entityB := pl.id
                    position := ⟨(pr.position.x + pl.position.x) / 2,
                                 (pr.position.y + pl.position.y) / 2⟩ }
                handleCollision roster
                  { st with collisions := st.collisions ++ [collision] } pr pl
              else st
          else st
      | Option.none => st
  | _, _ => st

/-- All index pairs i < j of a snapshot, in the order of the double loop of
detectCollisions. -/
def listPairs {α : Type} : List α → List (α × α)
  | [] => []
  | x :: xs => xs.map (fun y => (x, y)) ++ listPairs xs

/-- battle.go detectCollisions: a snapshot of the entity mapping is taken,
every unordered pair is examined once in loop order, and the room comes back
with the mutated entities and scores together with the collision list handed
to broadcastCollisions. -/
def detectCollisions (r : Room) : Room × List CollisionInfo :=
  let ids := r.entities.map entityId
  let final := (listPairs ids).foldl
    (fun st p => pairStep r.friendlyFire r.players st p.1 p.2)
    { entities := r.entities, scores := r.scores, collisions := [] }
  ({ r with entities := final.entities, scores := final.scores },
   final.collisions)

/-- room.go update, the parts that touch room state: the frame counter
advances, entities are integrated and expired, and collisions are detected
and resolved.  End-of-game evaluation and the frame broadcast read the wall
clock and the network and do not modify entities, so they are modelled
separately. -/
def roomUpdate (spawn : SpawnOracle) (dt : ℚ) (r : Room) :
    Room × List CollisionInfo :=
  let r1 := { r with
    frameID := r.frameID + 1
    entities := updateEntities spawn dt r.entities }
  detectCollisions r1

/-- server.go PlayerConnection: the outbound channel of capacity 256 becomes
the queued message list plus the capacity bound; the Room back-pointer is the
room id. -/
structure PlayerConnection where
  id : String
  playerID : Int
  roomID : Option String
  send : List String
  sendCap : Nat
deriving DecidableEq, Repr

/-- The game server state that the connection teardown path touches: the
connection registry and the room table. -/
structure GameServerState where
  connections : List PlayerConnection
  rooms : List Room
deriving DecidableEq, Repr

/-- room.go RemovePlayer: a no-op for an unknown connection id; otherwise the
entity of the roster entry is deleted from the entity mapping, the roster
entry is deleted, and lastActivity is refreshed. -/
def removePlayer (r : Room) (connID : String) (now : ℚ) : Room :=
  match r.players.find? (fun ps => ps.connID == connID) with
  | Option.none => r
  | some ps =>
      { r with
        entities := r.entities.eraseP (fun e => entityId e == ps.entityID)
        players := r.players.eraseP (fun q => q.connID == connID)
        lastActivity := now }

/-- websocket.go closeConnection: idempotent (a connection no longer in the
registry is left alone); otherwise the connection is removed from the room it
occupies, its channel is released, and it is deleted from the registry. -/
def closeConnection (s : GameServerState) (connID : String) (now : ℚ) :
    GameServerState :=
  match s.connections.find? (fun c => c.id == connID) with
  | Option.none => s
  | some c =>
      let rooms :=
        match c.roomID with
        | some rid =>
            s.rooms.map (fun r => if r.id == rid then removePlayer r connID now else r)
        | Option.none => s.rooms
      { connections := s.connections.eraseP (fun d => d.id == connID)
        rooms := rooms }

/-- websocket.go sendMessage: the nonblocking channel send; a message is
enqueued when the outbound queue has room, and a full queue makes the server
close the connection instead. -/
def sendMessage (s : GameServerState) (connID : String) (data : String)
    (now : ℚ) : GameServerState :=
  match s.connections.find? (fun c => c.id == connID) with
  | Option.none => s
  | some c =>
      if c.send.length < c.sendCap then
        { s with connections := s.connections.map (fun d =>
            if d.id == connID then { d with send := d.send ++ [data] } else d) }
      else
        closeConnection s connID now

/-- battle.go broadcastCollisions, channel side: the serialized frame is
offered to the connection of every roster member; the select default branch
merely skips a member whose queue is full, leaving the connection open. -/
def enqueueOrSkip (c : PlayerConnection) (data : String) : PlayerConnection :=
  if c.send.length < c.sendCap then { c with send := c.send ++ [data] } else c

/-- battle.go broadcastCollisions over the connection registry: for each
roster member of the room the frame is enqueued on its connection unless the
queue is full, in which case that member is skipped. -/
def broadcastCollisionsFrame (conns : List PlayerConnection) (r : Room)
    (data : String) : List PlayerConnection :=
  r.players.foldl
    (fun cs ps => cs.map (fun c => if c.id = ps.connID then enqueueOrSkip c data else c))
    conns

/-- The health and liveness invariant of one player entity: positive maximum
health, nonnegative health, and the alive flag holding exactly while health is
positive (the flag becomes false exactly when health reaches zero). -/
def playerInv (p : PlayerEntity) : Prop :=
  0 < p.maxHealth ∧ 0 ≤ p.health ∧ (p.isAlive = true ↔ 0 < p.health)

instance (p : PlayerEntity) : Decidable (playerInv p) := by
  unfold playerInv; infer_instance

/-- playerInv lifted to an entity: nontrivial only on the player variant. -/
def entInv : Entity → Prop
  | .player p => playerInv p
  | _ => True

instance : DecidablePred entInv := fun e => by
  cases e <;> simp only [entInv] <;> infer_instance

/-- Every player entity of a mapping satisfies the health invariant. -/
def roomPlayersInv (es : List Entity) : Prop :=
  ∀ e ∈ es, entInv e

instance (es : List Entity) : Decidable (roomPlayersInv es) := by
  unfold roomPlayersInv; infer_instance

/-- The projectile stored under projId has pId in its hit list. -/
def hitRecorded (es : List Entity) (projId pId : String) : Prop :=
  ∃ q : ProjectileEntity,
    findEntity es projId = some (.projectile q) ∧ pId ∈ q.hitEntities

/-- How one entity may evolve across a collision-detection pass: the identity,
kind, team, position and velocity are untouched; a player keeps its maximum
health, can only lose the alive flag, and keeps the health invariant; a
projectile keeps everything but its hit list, which only grows. -/
def entStep : Entity → Entity → Prop
  | .player p, .player p2 =>
      p2.id = p.id ∧ p2.playerID = p.playerID ∧ p2.team = p.team ∧
      p2.maxHealth = p.maxHealth ∧ p2.position = p.position ∧
      p2.velocity = p.velocity ∧
      (p2.isAlive = true → p.isAlive = true) ∧
      (playerInv p → playerInv p2)
  | .projectile q, .projectile q2 =>
      q2.id = q.id ∧ q2.ownerID = q.ownerID ∧ q2.damage = q.damage ∧
      q2.position = q.position ∧ q2.velocity = q.velocity ∧
      q2.lifeTime = q.lifeTime ∧ q.hitEntities ⊆ q2.hitEntities
  | .effect f, .effect f2 => f2 = f
  | _, _ => False

/-- The owner of a projectile resolves, in the given mapping, to a player
entity on the given team (boolean, for decidable hypotheses). -/
def ownerOnTeam (es : List Entity) (t : Team) : Entity → Bool
  | .projectile q =>
      q.ownerID != "" &&
      (match findEntity es q.ownerID with
       | some (.player o) => o.team == t
       | _ => false)
  | _ => true

/-- The team choice described by the specification: the smaller-count team,
tie broken to the first listed team (red).  Stated from the spec words, to be
compared with assignTeam. -/
def specSmallerTeam (redCount blueCount : Nat) : Team :=
  if redCount < blueCount then Team.red
  else if blueCount < redCount then Team.blue
  else Team.red

/-- A fixed spawn oracle for the concrete scenarios. -/
def spawnO : SpawnOracle := fun _ => ⟨500, 500⟩

/-- Concrete scenario for the single-hit claim: a projectile at the origin,
its far-away shooter, and an intersecting victim. -/
def shooterC1 : PlayerEntity :=
  { id := "shooterE", position := ⟨500, 500⟩, rotation := 0, velocity := ⟨0, 0⟩
    playerID := 1, characterID := 1, team := Team.none, health := 100
    maxHealth := 100, isAlive := true, respawnTime := 0, skillCooldowns := []
    kills := 0, deaths := 0, assists := 0 }

/-- The victim of the concrete single-hit scenario. -/
def victimC1 : PlayerEntity :=
  { id := "victimE", position := ⟨5, 0⟩, rotation := 0, velocity := ⟨0, 0⟩
    playerID := 2, characterID := 1, team := Team.none, health := 100
    maxHealth := 100, isAlive := true, respawnTime := 0, skillCooldowns := []
    kills := 0, deaths := 0, assists := 0 }

/-- The projectile of the concrete single-hit scenario. -/
def projC1 : ProjectileEntity :=
  { id := "proj1", position := ⟨0, 0⟩, rotation := 0, velocity := ⟨0, 0⟩
    ownerID := "shooterE", skillID := 1, damage := 10, lifeTime := 3
    hitEntities := [] }

/-- The room of the concrete single-hit scenario. -/
def roomC1 : Room :=
  { id := "r1", name := "ffa", mode := DeathMatch, status := RoomStatus.playing
    maxPlayers := 4, mapID := 1, timeLimit := 300, scoreLimit := 20
    friendlyFire := false
    players := [⟨"c1", "shooterE", true⟩, ⟨"c2", "victimE", true⟩]
    entities := [.projectile projC1, .player shooterC1, .player victimC1]
    frameID := 0, scores := [], lastActivity := 0, endedAt := 0 }

/-- The single-hit room after the projectile has already hit the victim. -/
def roomC1hit : Room :=
  { roomC1 with
    entities := [.projectile { projC1 with hitEntities := ["victimE"] },
                 .player shooterC1, .player victimC1] }

/-- A dead player whose 5 second respawn countdown has just been set. -/
def deadPlayerC3 : PlayerEntity :=
  { id := "victimE", position := ⟨5, 0⟩, rotation := 0, velocity := ⟨0, 0⟩
    playerID := 2, characterID := 1, team := Team.none, health := 0
    maxHealth := 100, isAlive := false, respawnTime := 5, skillCooldowns := []
    kills := 0, deaths := 1, assists := 0 }

/-- A playing room holding only the dead player. -/
def roomC3 : Room :=
  { id := "r3", name := "ffa", mode := DeathMatch, status := RoomStatus.playing
    maxPlayers := 4, mapID := 1, timeLimit := 300, scoreLimit := 20
    friendlyFire := false, players := [⟨"c2", "victimE", true⟩]
    entities := [.player deadPlayerC3]
    frameID := 0, scores := [], lastActivity := 0, endedAt := 0 }

/-- Red-team shooter for the friendly fire scenarios. -/
def shooterC4 : PlayerEntity :=
  { shooterC1 with id := "aE", team := Team.red }

/-- Red-team victim for the friendly fire scenarios. -/
def victimC4 : PlayerEntity :=
  { victimC1 with id := "bE", team := Team.red }

/-- A projectile of the red shooter, intersecting the red victim. -/
def projC4 : ProjectileEntity :=
  { projC1 with id := "prF", ownerID := "aE", damage := 8 }

/-- Team scenario with friendly fire disabled. -/
def roomC4 : Room :=
  { roomC1 with
    id := "r4", mode := TeamDeathMatch
    players := [⟨"c1", "aE", true⟩, ⟨"c2", "bE", true⟩]
    entities := [.projectile projC4, .player shooterC4, .player victimC4] }

/-- The same scenario with friendly fire enabled. -/
def roomC4ff : Room :=
  { roomC4 with friendlyFire := true }

/-- Four queued death-match requests. -/
def mreq (n : Int) : MatchRequest :=
  { playerID := n, characterID := 1, gameMode := DeathMatch
    timestamp := 0, sessionID := "s" }

/-- A queue holding exactly the death-match batch size. -/
def queueC5 : List MatchRequest :=
  [mreq 1, mreq 2, mreq 3, mreq 4]

/-- An empty waiting room for the AddPlayer scenario. -/
def roomC6 : Room :=
  { id := "r6", name := "new", mode := DeathMatch, status := RoomStatus.waiting
    maxPlayers := 4, mapID := 1, timeLimit := 300, scoreLimit := 20
    friendlyFire := false, players := [], entities := []
    frameID := 0, scores := [], lastActivity := 0, endedAt := 0 }

/-- An empty capture-point room (the 4v4 mode of the lookup table). -/
def roomC7 : Room :=
  { roomC6 with id := "r7", mode := CapturePoint, maxPlayers := 8 }

/-- An empty team-death-match room with one red roster member. -/
def roomC7tdm : Room :=
  { roomC6 with
    id := "r7t", mode := TeamDeathMatch, maxPlayers := 6
    players := [⟨"c1", "aE", false⟩]
    entities := [.player shooterC4] }

/-- A registered connection whose bounded outbound queue is full. -/
def connC8 : PlayerConnection :=
  { id := "c1", playerID := 1, roomID := some "r8"
    send := ["backlog"], sendCap := 1 }

/-- The room the full connection occupies. -/
def roomC8 : Room :=
  { roomC1 with
    id := "r8"
    players := [⟨"c1", "shooterE", true⟩]
    entities := [.player shooterC1] }

/-- Server state holding the full connection and its room. -/
def serverC8 : GameServerState :=
  { connections := [connC8], rooms := [roomC8] }

/-- An empty room that is also ended: three minutes past endedAt but under
five minutes idle. -/
def roomC9 : Room :=
  { roomC6 with
    id := "r9", status := RoomStatus.ended
    lastActivity := 120, endedAt := 120 }

/-- An ownerless basic-shot projectile intersecting two distinct players. -/
def projC10 : ProjectileEntity :=
  { projC1 with id := "prX", ownerID := "", damage := 10 }

/-- First target of the multi-hit scenario. -/
def playerC10a : PlayerEntity :=
  { victimC1 with id := "p1E", position := ⟨2, 0⟩ }

/-- Second target of the multi-hit scenario. -/
def playerC10b : PlayerEntity :=
  { victimC1 with id := "p2E", playerID := 3, position := ⟨0, 2⟩ }

/-- Room in which one ordinary projectile overlaps two players at once. -/
def roomC10 : Room :=
  { roomC1 with
    id := "r10"
    players := [⟨"c1", "p1E", true⟩, ⟨"c2", "p2E", true⟩]
    entities := [.projectile projC10, .player playerC10a, .player playerC10b] }

/-! ## Basic lemmas about the entity mapping -/

theorem findEntity_some_id {es : List Entity} {i : String} {e : Entity}
    (h : findEntity es i = some e) : entityId e = i := by
  have h2 := List.find?_some h
  simpa using h2

theorem findEntity_cons_pos {a : Entity} {i : String} (es : List Entity)
    (ha : entityId a = i) : findEntity (a :: es) i = some a := by
  simp [findEntity, List.find?_cons_of_pos, ha]

theorem findEntity_cons_neg {a : Entity} {i : String} (es : List Entity)
    (ha : ¬ entityId a = i) : findEntity (a :: es) i = findEntity es i := by
  simp [findEntity, List.find?_cons_of_neg, ha]

theorem updateEntity_cons_pos {a : Entity} {i : String} (es : List Entity)
    (f : Entity → Entity) (ha : entityId a = i) :
    updateEntity (a :: es) i f = f a :: es := by
  simp [updateEntity, ha]

theorem updateEntity_cons_neg {a : Entity} {i : String} (es : List Entity)
    (f : Entity → Entity) (ha : ¬ entityId a = i) :
    updateEntity (a :: es) i f = a :: updateEntity es i f := by
  simp [updateEntity, ha]

theorem findEntity_updateEntity_self {es : List Entity} {i : String}
    {f : Entity → Entity} {e : Entity}
    (h : findEntity es i = some e) (hf : entityId (f e) = i) :
    findEntity (updateEntity es i f) i = some (f e) := by
  induction es with
  | nil => simp [findEntity] at h
  | cons a es ih =>
      by_cases ha : entityId a = i
      · have hae : a = e := by
          rw [findEntity_cons_pos es ha] at h
          exact Option.some.inj h
        subst hae
        rw [updateEntity_cons_pos es f ha, findEntity_cons_pos es hf]
      · rw [findEntity_cons_neg es ha] at h
        rw [updateEntity_cons_neg es f ha, findEntity_cons_neg _ ha]
        exact ih h

theorem findEntity_updateEntity_ne {es : List Entity} {i j : String}
    {f : Entity → Entity} (hij : i ≠ j)
    (hf : ∀ e, findEntity es i = some e → entityId (f e) = i) :
    findEntity (updateEntity es i f) j = findEntity es j := by
  induction es with
  | nil => simp [updateEntity]
  | cons a es ih =>
      by_cases ha : entityId a = i
      · have hfa : entityId (f a) = i := hf a (findEntity_cons_pos es ha)
        have haj : ¬ entityId a = j := by rw [ha]; exact hij
        have hfaj : ¬ entityId (f a) = j := by rw [hfa]; exact hij
        rw [updateEntity_cons_pos es f ha, findEntity_cons_neg es hfaj,
          findEntity_cons_neg es haj]
      · rw [updateEntity_cons_neg es f ha]
        have hrec := ih (fun e he => hf e (by
          rw [findEntity_cons_neg es ha]; exact he))
        by_cases haj : entityId a = j
        · rw [findEntity_cons_pos _ haj, findEntity_cons_pos es haj]
        · rw [findEntity_cons_neg _ haj, findEntity_cons_neg es haj]
          exact hrec

theorem updateEntity_rel {R : Entity → Entity → Prop} (hR : ∀ e, R e e)
    {es : List Entity} {i : String} {f : Entity → Entity}
    (hf : ∀ e, findEntity es i = some e → R e (f e)) :
    List.Forall₂ R es (updateEntity es i f) := by
  induction es with
  | nil => simp [updateEntity]
  | cons a es ih =>
      by_cases ha : entityId a = i
      · have hfa : R a (f a) := hf a (by
          simpa [findEntity, List.find?_cons_of_pos, ha] using rfl)
        simpa [updateEntity, ha] using
          List.Forall₂.cons hfa (List.forall₂_same.2 (fun e _ => hR e))
      · have hrec := ih (fun e he => hf e (by
          simpa [findEntity, List.find?_cons_of_neg, ha] using he))
        simpa [updateEntity, ha] using List.Forall₂.cons (hR a) hrec

theorem forall₂_trans {R : Entity → Entity → Prop}
    (ht : ∀ a b c, R a b → R b c → R a c) :
    ∀ {l1 l2 l3 : List Entity},
      List.Forall₂ R l1 l2 → List.Forall₂ R l2 l3 → List.Forall₂ R l1 l3 := by
  intro l1 l2 l3 h12 h23
  induction h12 generalizing l3 with
  | nil => cases h23; exact List.Forall₂.nil
  | cons hab h ih =>
      cases h23 with
      | cons hbc h2 => exact List.Forall₂.cons (ht _ _ _ hab hbc) (ih h2)

theorem forall₂_mem_right {R : Entity → Entity → Prop} :
    ∀ {l1 l2 : List Entity}, List.Forall₂ R l1 l2 →
      ∀ b ∈ l2, ∃ a ∈ l1, R a b := by
  intro l1 l2 h
  induction h with
  | nil => intro b hb; simp at hb
  | cons hab h ih =>
      intro b hb
      rcases List.mem_cons.1 hb with hb | hb
      · exact ⟨_, List.mem_cons_self _ _, hb ▸ hab⟩
      · rcases ih b hb with ⟨a, ha, hr⟩
        exact ⟨a, List.mem_cons_of_mem _ ha, hr⟩

/-! ## Claim theorems: room cleanup (C9) -/

/-- Claim C9, counterexample: a room that is both empty and Ended, three
minutes past endedAt but only three minutes idle, is claimed eligible for
cleanup (the Ended disjunct holds) yet ShouldCleanup returns false, because
the empty branch returns without consulting the Ended branch. -/
theorem shouldCleanup_counterexample :
    shouldCleanup roomC9 300 = false ∧
    isEmpty roomC9 = true ∧
    roomC9.status = RoomStatus.ended ∧
    (300 : ℚ) - roomC9.endedAt > 2 * 60 ∧
    ¬ ((300 : ℚ) - roomC9.lastActivity > 5 * 60) := by
  with_unfolding_all decide

/-- Claim C9, amended: ShouldCleanup is true exactly when the room is empty
and more than five minutes idle, or nonempty, Ended and more than two minutes
past endedAt; the Ended grace period is only consulted for nonempty rooms. -/
theorem shouldCleanup_iff (r : Room) (now : ℚ) :
    shouldCleanup r now = true ↔
      ((r.players.length = 0 ∧ now - r.lastActivity > 5 * 60) ∨
       (r.players.length ≠ 0 ∧ r.status = RoomStatus.ended ∧
        now - r.endedAt > 2 * 60)) := by
  simp only [shouldCleanup, isEmpty]
  split_ifs with h1 h2 <;> simp_all

/-! ## Claim theorems: matchmaking batch (C5) -/

/-- Claim C5: a queue holding exactly the required count for its mode yields,
in one matching pass, exactly one room creation request (for that mode, that
player count, map 1) with the whole queue popped in FIFO order and nothing
left; a shorter queue yields no request and is left untouched; and the
required counts are 4, 6, 6 and 8 for the four modes. -/
theorem matching_pass_exact_batch (mode : GameMode) (queue : List MatchRequest)
    (hlen : queue.length = getPlayersNeededForMode mode) :
    processMatchingForMode mode queue =
      ([], some (⟨mode, getPlayersNeededForMode mode, 1⟩, queue)) ∧
    (∀ shortQueue : List MatchRequest,
        shortQueue.length < getPlayersNeededForMode mode →
        processMatchingForMode mode shortQueue = (shortQueue, Option.none)) ∧
    getPlayersNeededForMode DeathMatch = 4 ∧
    getPlayersNeededForMode TeamDeathMatch = 6 ∧
    getPlayersNeededForMode FlagCapture = 6 ∧
    getPlayersNeededForMode CapturePoint = 8 := by
  refine ⟨?_, ?_, by decide, by decide, by decide, by decide⟩
  · unfold processMatchingForMode
    rw [← hlen]
    simp [List.drop_length, List.take_length]
  · intro q hq
    unfold processMatchingForMode
    rw [if_pos hq]

/-- Witness for C5: the four-request death-match queue is matched whole. -/
theorem matching_pass_exact_batch_witness :
    queueC5.length = getPlayersNeededForMode DeathMatch ∧
    processMatchingForMode DeathMatch queueC5 =
      ([], some (⟨DeathMatch, getPlayersNeededForMode DeathMatch, 1⟩, queueC5)) :=
  ⟨by decide, (matching_pass_exact_batch DeathMatch queueC5 (by decide)).1⟩

/-! ## Claim theorems: team assignment (C7) -/

/-- Claim C7, counterexample: capture point is the 4v4 mode of the lookup
table (8 players), yet assignTeam hands its players TeamNone, because only
TeamDeathMatch and FlagCapture are treated as team based. -/
theorem assignTeam_counterexample :
    roomC7.mode = CapturePoint ∧
    getPlayersNeededForMode CapturePoint = 8 ∧
    assignTeam roomC7 = Team.none ∧
    Team.none ≠ Team.red ∧ Team.none ≠ Team.blue := by decide

/-- Claim C7, amended: team assignment happens exactly for TeamDeathMatch and
FlagCapture (the two 3v3 modes) and picks the smaller-count team with ties to
red, matching the specification choice function; every other mode, including
the 4v4 capture point mode, gets TeamNone. -/
theorem assignTeam_amended (r : Room) :
    ((r.mode = TeamDeathMatch ∨ r.mode = FlagCapture) →
       assignTeam r =
         specSmallerTeam (countTeam r Team.red) (countTeam r Team.blue)) ∧
    (r.mode ≠ TeamDeathMatch ∧ r.mode ≠ FlagCapture →
       assignTeam r = Team.none) := by
  constructor
  · intro h
    unfold assignTeam specSmallerTeam
    rw [if_neg (by tauto)]
    by_cases h1 : countTeam r Team.red ≤ countTeam r Team.blue
    · rw [if_pos h1]
      by_cases h2 : countTeam r Team.red < countTeam r Team.blue
      · rw [if_pos h2]
      · rw [if_neg h2, if_neg (by omega)]
    · rw [if_neg h1, if_neg (by omega), if_pos (by omega)]
  · intro h
    unfold assignTeam
    rw [if_pos h]

/-- Witness for C7: a team-death-match room with one red member assigns blue
(the smaller team), and the capture point room assigns TeamNone. -/
theorem assignTeam_amended_witness :
    assignTeam roomC7tdm =
      specSmallerTeam (countTeam roomC7tdm Team.red) (countTeam roomC7tdm Team.blue) ∧
    assignTeam roomC7 = Team.none :=
  ⟨(assignTeam_amended roomC7tdm).1 (Or.inl (by decide)),
   (assignTeam_amended roomC7).2 (by decide)⟩

/-! ## Claim theorems: respawn countdown (C3) -/

/-- Claim C3, code bug: room.go updateEntities subtracts int(deltaTime) from
the respawn countdown, and at the fixed 60 Hz tick rate int(1/60) = 0, so the
countdown of a dead player never decreases and the player never respawns no
matter how many ticks elapse — contradicting both the claim and the source
comment that a killed player respawns after its 5 second countdown. -/
theorem respawn_countdown_never_elapses :
    truncToZero (1 / 60) = 0 ∧
    deadPlayerC3.isAlive = false ∧
    deadPlayerC3.respawnTime = 5 ∧
    (∀ n : Nat, (tickPlayer spawnO (1 / 60))^[n] deadPlayerC3 = deadPlayerC3) ∧
    (∀ n : Nat,
      ((fun r => (roomUpdate spawnO (1 / 60) r).1)^[n] roomC3).entities =
        [Entity.player deadPlayerC3]) := by
  have hfix : tickPlayer spawnO (1 / 60) deadPlayerC3 = deadPlayerC3 := by
    with_unfolding_all decide
  have hroom : ∀ r : Room, r.entities = [Entity.player deadPlayerC3] →
      ((roomUpdate spawnO (1 / 60) r).1).entities =
        [Entity.player deadPlayerC3] := by
    intro r h
    have hfix2 : tickPlayer spawnO (60 : ℚ)⁻¹ deadPlayerC3 = deadPlayerC3 := by
      rw [← one_div]; exact hfix
    simp [roomUpdate, detectCollisions, updateEntities, stepEntity, h, hfix,
      hfix2, entityId, listPairs]
  refine ⟨by with_unfolding_all decide, by decide, by decide,
    fun n => Function.iterate_fixed hfix n, ?_⟩
  intro n
  induction n with
  | zero => rfl
  | succ n ih =>
      rw [Function.iterate_succ_apply']
      exact hroom _ ih

/-! ## Claim theorems: AddPlayer (C6) -/

theorem findEntity_append_fresh {es : List Entity} {e : Entity}
    (h : entityId e ∉ es.map entityId) :
    findEntity (es ++ [e]) (entityId e) = some e := by
  induction es with
  | nil => exact findEntity_cons_pos [] rfl
  | cons a es ih =>
      rw [List.map_cons, List.mem_cons] at h
      push_neg at h
      obtain ⟨h1, h2⟩ := h
      rw [List.cons_append, findEntity_cons_neg _ (fun hh => h1 hh.symm)]
      exact ih h2

/-- Claim C6: AddPlayer fails with the room-full error exactly when the
roster is at MaxPlayers, with the room-closed error exactly when there is
space but the room is not Waiting, and succeeds exactly when there is space
and the room is Waiting; an erroring call leaves the room untouched, and a
successful call grows the roster by exactly one, registers a fresh alive
player entity with full health, leaves the scores untouched and refreshes the
last-activity timestamp.  The freshness hypotheses state that the connection
id and the entity uuid are not already keys of the respective maps, which is
what the Go map inserts presuppose. -/
theorem addPlayer_spec (r : Room) (connID : String) (pid cid : Int)
    (eid : String) (spawnPos : Vector2D) (now : ℚ)
    (hconn : ∀ ps ∈ r.players, ps.connID ≠ connID)
    (heid : eid ∉ r.entities.map entityId) :
    ((addPlayer r connID pid cid eid spawnPos now).2 = some AddPlayerError.roomFull
        ↔ r.players.length ≥ r.maxPlayers) ∧
    ((addPlayer r connID pid cid eid spawnPos now).2 = some AddPlayerError.roomClosed
        ↔ r.players.length < r.maxPlayers ∧ r.status ≠ RoomStatus.waiting) ∧
    ((addPlayer r connID pid cid eid spawnPos now).2 = Option.none
        ↔ r.players.length < r.maxPlayers ∧ r.status = RoomStatus.waiting) ∧
    (∀ err, (addPlayer r connID pid cid eid spawnPos now).2 = some err →
        (addPlayer r connID pid cid eid spawnPos now).1 = r) ∧
    ((addPlayer r connID pid cid eid spawnPos now).2 = Option.none →
        (addPlayer r connID pid cid eid spawnPos now).1.players.length =
          r.players.length + 1 ∧
        findEntity (addPlayer r connID pid cid eid spawnPos now).1.entities eid =
          some (.player
            { id := eid, position := spawnPos, rotation := 0
              velocity := ⟨0, 0⟩, playerID := pid, characterID := cid
              team := assignTeam r, health := 100, maxHealth := 100
              isAlive := true, respawnTime := 0, skillCooldowns := []
              kills := 0, deaths := 0, assists := 0 }) ∧
        (addPlayer r connID pid cid eid spawnPos now).1.scores = r.scores ∧
        (addPlayer r connID pid cid eid spawnPos now).1.lastActivity = now) := by
  unfold addPlayer
  split_ifs with h1 h2
  · refine ⟨by simp [h1], ?_, ?_, fun err _ => rfl, by intro h; simp at h⟩
    · constructor
      · intro hcontra; simp at hcontra
      · rintro ⟨hlt, _⟩; exact absurd hlt (by omega)
    · constructor
      · intro hcontra; simp at hcontra
      · rintro ⟨hlt, _⟩; exact absurd hlt (by omega)
  · refine ⟨?_, ?_, ?_, fun err _ => rfl, by intro h; simp at h⟩
    · constructor
      · intro hcontra; simp at hcontra
      · intro hge; exact absurd hge h1
    · exact iff_of_true rfl ⟨by omega, h2⟩
    · constructor
      · intro hcontra; simp at hcontra
      · rintro ⟨_, hw⟩; exact absurd hw h2
  · push_neg at h2
    refine ⟨?_, ?_, iff_of_true rfl ⟨by omega, h2⟩, by intro err h; simp at h, ?_⟩
    · constructor
      · intro hcontra; simp at hcontra
      · intro hge; exact absurd hge h1
    · constructor
      · intro hcontra; simp at hcontra
      · rintro ⟨_, hnw⟩; exact absurd h2 hnw
    · intro _
      refine ⟨by simp, findEntity_append_fresh heid, rfl, rfl⟩

/-- Witness for C6: adding a player to the empty waiting room succeeds and
grows the roster to one. -/
theorem addPlayer_spec_witness :
    (addPlayer roomC6 "c9" 5 1 "e9" ⟨1, 2⟩ 42).2 = Option.none ∧
    (addPlayer roomC6 "c9" 5 1 "e9" ⟨1, 2⟩ 42).1.players.length =
      roomC6.players.length + 1 := by
  have h := addPlayer_spec roomC6 "c9" 5 1 "e9" ⟨1, 2⟩ 42
    (by intro ps hps; simp [roomC6] at hps)
    (by simp [roomC6])
  have hnone : (addPlayer roomC6 "c9" 5 1 "e9" ⟨1, 2⟩ 42).2 = Option.none :=
    h.2.2.1.mpr ⟨by decide, rfl⟩
  exact ⟨hnone, (h.2.2.2.2 hnone).1⟩

/-! ## Claim theorems: backpressure (C8) -/

theorem find?_eraseP_key {α : Type} (key : α → String) (l : List α) (i : String)
    (hnd : (l.map key).Nodup) :
    (l.eraseP (fun a => key a == i)).find? (fun a => key a == i) =
      Option.none := by
  induction l with
  | nil => rfl
  | cons a l ih =>
      rw [List.map_cons, List.nodup_cons] at hnd
      obtain ⟨hka, hl⟩ := hnd
      by_cases h : key a = i
      · rw [List.eraseP_cons_of_pos (by simp [h])]
        refine List.find?_eq_none.2 (fun b hb => ?_)
        simp only [beq_iff_eq]
        intro hbeq
        exact hka (by rw [h, ← hbeq]; exact List.mem_map_of_mem key hb)
      · rw [List.eraseP_cons_of_neg (by simp [h]),
          List.find?_cons_of_neg _ (by simp [h])]
        exact ih hl

/-- Claim C8, counterexample: the per-tick room frame broadcast does not
close a member whose outbound queue is full — the select default branch
skips the member, the frame is dropped, and the connection remains in the
registry, contradicting the claim that every enqueue on a full queue closes
the connection. -/
theorem broadcast_overflow_counterexample :
    ¬ connC8.send.length < connC8.sendCap ∧
    connC8 ∈ serverC8.connections ∧
    connC8 ∈ broadcastCollisionsFrame serverC8.connections roomC8 "frame" ∧
    broadcastCollisionsFrame serverC8.connections roomC8 "frame" =
      serverC8.connections := by decide

/-- Claim C8, amended: the per-connection sendMessage path does close a
connection whose queue is full (it becomes closeConnection, which removes the
connection from the registry) and never blocks, but the per-tick room frame
broadcast never closes anyone: it preserves the connection registry
membership exactly, dropping the frame for full members. -/
theorem backpressure_amended (s : GameServerState) (connID : String)
    (c : PlayerConnection) (data : String) (now : ℚ)
    (hfind : s.connections.find? (fun d => d.id == connID) = some c)
    (hfull : ¬ c.send.length < c.sendCap)
    (hnd : (s.connections.map (fun d => d.id)).Nodup) :
    sendMessage s connID data now = closeConnection s connID now ∧
    (closeConnection s connID now).connections.find?
        (fun d => d.id == connID) = Option.none ∧
    (∀ (conns : List PlayerConnection) (r : Room) (frame : String),
       (broadcastCollisionsFrame conns r frame).map (fun d => d.id) =
         conns.map (fun d => d.id)) := by
  refine ⟨?_, ?_, ?_⟩
  · unfold sendMessage
    rw [hfind]
    simp only [if_neg hfull]
  · unfold closeConnection
    rw [hfind]
    exact find?_eraseP_key (fun d => d.id) s.connections connID hnd
  · intro conns r frame
    unfold broadcastCollisionsFrame
    induction r.players generalizing conns with
    | nil => simp
    | cons ps roster ih =>
        rw [List.foldl_cons, ih, List.map_map]
        congr 1
        funext d
        by_cases hd : d.id = ps.connID
        · simp only [Function.comp_apply, if_pos hd, enqueueOrSkip]
          split_ifs <;> rfl
        · simp only [Function.comp_apply, if_neg hd]

/-- Witness for C8: the full connection of the concrete server is closed by
sendMessage and gone from the registry afterwards. -/
theorem backpressure_amended_witness :
    sendMessage serverC8 "c1" "x" 7 = closeConnection serverC8 "c1" 7 ∧
    (closeConnection serverC8 "c1" 7).connections.find?
        (fun d => d.id == "c1") = Option.none := by
  have h := backpressure_amended serverC8 "c1" connC8 "x" 7
    (by decide) (by decide) (by decide)
  exact ⟨h.1, h.2.1⟩

/-! ## The evolution relation of one collision pass -/

theorem entStep_refl : ∀ e, entStep e e := by
  intro e
  cases e with
  | player p => exact ⟨rfl, rfl, rfl, rfl, rfl, rfl, fun h => h, fun h => h⟩
  | projectile q =>
      exact ⟨rfl, rfl, rfl, rfl, rfl, rfl, List.Subset.refl _⟩
  | effect f => rfl

theorem entStep_trans :
    ∀ a b c, entStep a b → entStep b c → entStep a c := by
  intro a b c hab hbc
  cases a with
  | player p =>
      cases b with
      | player p2 =>
          cases c with
          | player p3 =>
              obtain ⟨h1, h2, h3, h4, h5, h6, h7, h8⟩ := hab
              obtain ⟨g1, g2, g3, g4, g5, g6, g7, g8⟩ := hbc
              exact ⟨g1.trans h1, g2.trans h2, g3.trans h3, g4.trans h4,
                g5.trans h5, g6.trans h6, fun hh => h7 (g7 hh),
                fun hh => g8 (h8 hh)⟩
          | projectile _ => exact absurd hbc (by simp [entStep])
          | effect _ => exact absurd hbc (by simp [entStep])
      | projectile _ => exact absurd hab (by simp [entStep])
      | effect _ => exact absurd hab (by simp [entStep])
  | projectile q =>
      cases b with
      | projectile q2 =>
          cases c with
          | projectile q3 =>
              obtain ⟨h1, h2, h3, h4, h5, h6, h7⟩ := hab
              obtain ⟨g1, g2, g3, g4, g5, g6, g7⟩ := hbc
              exact ⟨g1.trans h1, g2.trans h2, g3.trans h3, g4.trans h4,
                g5.trans h5, g6.trans h6, h7.trans g7⟩
          | player _ => exact absurd hbc (by simp [entStep])
          | effect _ => exact absurd hbc (by simp [entStep])
      | player _ => exact absurd hab (by simp [entStep])
      | effect _ => exact absurd hab (by simp [entStep])
  | effect f =>
      cases b with
      | effect f2 =>
          cases c with
          | effect f3 => exact hbc.trans hab
          | player _ => exact absurd hbc (by simp [entStep])
          | projectile _ => exact absurd hbc (by simp [entStep])
      | player _ => exact absurd hab (by simp [entStep])
      | projectile _ => exact absurd hab (by simp [entStep])

theorem entStep_id {e e2 : Entity} (h : entStep e e2) :
    entityId e2 = entityId e := by
  cases e with
  | player p =>
      cases e2 with
      | player p2 => exact h.1
      | projectile _ => exact absurd h (by simp [entStep])
      | effect _ => exact absurd h (by simp [entStep])
  | projectile q =>
      cases e2 with
      | projectile q2 => exact h.1
      | player _ => exact absurd h (by simp [entStep])
      | effect _ => exact absurd h (by simp [entStep])
  | effect f =>
      cases e2 with
      | effect f2 => exact congrArg EffectEntity.id h
      | player _ => exact absurd h (by simp [entStep])
      | projectile _ => exact absurd h (by simp [entStep])

theorem findEntity_forall₂ :
    ∀ {l1 l2 : List Entity}, List.Forall₂ entStep l1 l2 →
      ∀ {i : String} {e : Entity}, findEntity l1 i = some e →
        ∃ e2, findEntity l2 i = some e2 ∧ entStep e e2 := by
  intro l1 l2 h
  induction h with
  | nil => intro i e he; simp [findEntity] at he
  | cons hab hrest ih =>
      rename_i a b l1t l2t
      intro i e he
      by_cases ha : entityId a = i
      · rw [findEntity_cons_pos _ ha] at he
        have hb : entityId b = i := by rw [entStep_id hab]; exact ha
        exact ⟨b, findEntity_cons_pos _ hb, (Option.some.inj he) ▸ hab⟩
      · rw [findEntity_cons_neg _ ha] at he
        have hb : ¬ entityId b = i := by rw [entStep_id hab]; exact ha
        rw [findEntity_cons_neg _ hb]
        exact ih he

theorem findEntity_forall₂_back :
    ∀ {l1 l2 : List Entity}, List.Forall₂ entStep l1 l2 →
      ∀ {i : String} {e2 : Entity}, findEntity l2 i = some e2 →
        ∃ e, findEntity l1 i = some e ∧ entStep e e2 := by
  intro l1 l2 h
  induction h with
  | nil => intro i e2 he; simp [findEntity] at he
  | cons hab hrest ih =>
      rename_i a b l1t l2t
      intro i e2 he
      by_cases ha : entityId a = i
      · have hb : entityId b = i := by rw [entStep_id hab]; exact ha
        rw [findEntity_cons_pos _ hb] at he
        exact ⟨a, findEntity_cons_pos _ ha, (Option.some.inj he) ▸ hab⟩
      · have hb : ¬ entityId b = i := by rw [entStep_id hab]; exact ha
        rw [findEntity_cons_neg _ hb] at he
        rw [findEntity_cons_neg _ ha]
        exact ih he

theorem forall₂_map_entityId {l1 l2 : List Entity}
    (h : List.Forall₂ entStep l1 l2) :
    l2.map entityId = l1.map entityId := by
  induction h with
  | nil => rfl
  | cons hab hrest ih =>
      simp only [List.map_cons, ih, entStep_id hab]

theorem hitRecorded_mono {es es2 : List Entity} {a b : String}
    (h : List.Forall₂ entStep es es2) (hr : hitRecorded es a b) :
    hitRecorded es2 a b := by
  obtain ⟨q, hq, hmem⟩ := hr
  obtain ⟨e2, he2, hstep⟩ := findEntity_forall₂ h hq
  cases e2 with
  | projectile q2 => exact ⟨q2, he2, hstep.2.2.2.2.2.2 hmem⟩
  | player _ => exact absurd hstep (by simp [entStep])
  | effect _ => exact absurd hstep (by simp [entStep])

theorem damagedPlayer_id (pl : PlayerEntity) (d : Int) :
    (damagedPlayer pl d).id = pl.id := by
  unfold damagedPlayer
  split_ifs <;> rfl

theorem damagedPlayer_entStep {pl : PlayerEntity} (halive : pl.isAlive = true)
    (d : Int) : entStep (.player pl) (.player (damagedPlayer pl d)) := by
  unfold damagedPlayer
  split_ifs with h
  · refine ⟨rfl, rfl, rfl, rfl, rfl, rfl, ?_, ?_⟩
    · intro hh; simp at hh
    · rintro ⟨hm, hh, hiff⟩
      exact ⟨hm, le_refl 0, by simp⟩
  · refine ⟨rfl, rfl, rfl, rfl, rfl, rfl, fun hh => hh, ?_⟩
    rintro ⟨hm, hh, hiff⟩
    refine ⟨hm, ?_, ?_⟩
    · show (0 : Int) ≤ pl.health - d
      omega
    · show pl.isAlive = true ↔ 0 < pl.health - d
      exact ⟨fun _ => by omega, fun _ => halive⟩

theorem entityId_mapPlayer {f : PlayerEntity → PlayerEntity}
    (hf : ∀ p, (f p).id = p.id) (e : Entity) :
    entityId (mapPlayer f e) = entityId e := by
  cases e <;> simp [mapPlayer, entityId, hf]

theorem entityId_mapPlayer_kills (e : Entity) :
    entityId (mapPlayer (fun o => { o with kills := o.kills + 1 }) e) =
      entityId e := by
  cases e <;> rfl

theorem entityId_mapPlayer_deaths (e : Entity) :
    entityId (mapPlayer (fun v => { v with deaths := v.deaths + 1 }) e) =
      entityId e := by
  cases e <;> rfl

theorem entStep_mapPlayer_kills (e : Entity) :
    entStep e (mapPlayer (fun o => { o with kills := o.kills + 1 }) e) := by
  cases e with
  | player p => exact ⟨rfl, rfl, rfl, rfl, rfl, rfl, fun h => h, fun h => h⟩
  | projectile q => exact entStep_refl _
  | effect f => exact entStep_refl _

theorem entStep_mapPlayer_deaths (e : Entity) :
    entStep e (mapPlayer (fun v => { v with deaths := v.deaths + 1 }) e) := by
  cases e with
  | player p => exact ⟨rfl, rfl, rfl, rfl, rfl, rfl, fun h => h, fun h => h⟩
  | projectile q => exact entStep_refl _
  | effect f => exact entStep_refl _

/-- One handleCollision call only evolves the entity mapping along entStep,
never touches the collision list, and records the victim in the hit list of
the projectile. -/
theorem handleCollision_spec (roster : List PlayerState) (st : PassState)
    (pr : ProjectileEntity) (pl : PlayerEntity)
    (hpr : findEntity st.entities pr.id = some (.projectile pr))
    (hpl : findEntity st.entities pl.id = some (.player pl))
    (halive : pl.isAlive = true) :
    List.Forall₂ entStep st.entities (handleCollision roster st pr pl).entities ∧
    (handleCollision roster st pr pl).collisions = st.collisions ∧
    hitRecorded (handleCollision roster st pr pl).entities pr.id pl.id := by
  have hne : pr.id ≠ pl.id := by
    intro h
    rw [h, hpl] at hpr
    simp at hpr
  simp only [handleCollision]
  set pr2 : ProjectileEntity :=
    { pr with hitEntities := pr.hitEntities ++ [pl.id] } with hpr2
  set es1 := updateEntity st.entities pr.id (fun _ => Entity.projectile pr2)
    with hes1
  have hfid1 : ∀ e, findEntity st.entities pr.id = some e →
      entityId ((fun _ => Entity.projectile pr2) e) = pr.id := by
    intro e he; rfl
  have A1 : List.Forall₂ entStep st.entities es1 := by
    rw [hes1]
    refine updateEntity_rel entStep_refl (fun e he => ?_)
    rw [hpr] at he
    cases Option.some.inj he
    exact ⟨rfl, rfl, rfl, rfl, rfl, rfl, List.subset_append_left _ _⟩
  have hfind1pl : findEntity es1 pl.id = some (.player pl) := by
    rw [hes1, findEntity_updateEntity_ne hne hfid1]
    exact hpl
  have hfind1pr : findEntity es1 pr.id = some (.projectile pr2) := by
    rw [hes1]
    exact findEntity_updateEntity_self hpr rfl
  set es2 := updateEntity es1 pl.id
    (fun _ => Entity.player (damagedPlayer pl pr.damage)) with hes2
  have hfid2 : ∀ e, findEntity es1 pl.id = some e →
      entityId ((fun _ => Entity.player (damagedPlayer pl pr.damage)) e) =
        pl.id := by
    intro e he
    simpa [entityId] using damagedPlayer_id pl pr.damage
  have A2 : List.Forall₂ entStep es1 es2 := by
    rw [hes2]
    refine updateEntity_rel entStep_refl (fun e he => ?_)
    rw [hfind1pl] at he
    cases Option.some.inj he
    exact damagedPlayer_entStep halive pr.damage
  have A12 : List.Forall₂ entStep st.entities es2 :=
    forall₂_trans entStep_trans A1 A2
  have hfind2pr : findEntity es2 pr.id = some (.projectile pr2) := by
    rw [hes2, findEntity_updateEntity_ne (Ne.symm hne) hfid2]
    exact hfind1pr
  have hrec2 : hitRecorded es2 pr.id pl.id :=
    ⟨pr2, hfind2pr, by rw [hpr2]; simp⟩
  cases hm : findEntity es2 pr.ownerID with
  | none => split_ifs <;> exact ⟨A12, rfl, hrec2⟩
  | some owner =>
      cases owner with
      | projectile q2 => split_ifs <;> exact ⟨A12, rfl, hrec2⟩
      | effect f2 => split_ifs <;> exact ⟨A12, rfl, hrec2⟩
      | player ow =>
          have howid : ow.id = pr.ownerID := by
            simpa [entityId] using findEntity_some_id hm
          have hownepr : ow.id ≠ pr.id := by
            intro hh
            rw [← howid, hh, hfind2pr] at hm
            simp at hm
          have hkillstep : List.Forall₂ entStep es2
              (updateEntity es2 ow.id
                (mapPlayer fun o => { o with kills := o.kills + 1 })) :=
            updateEntity_rel entStep_refl (fun e _ => entStep_mapPlayer_kills e)
          have hkillfind : findEntity
              (updateEntity es2 ow.id
                (mapPlayer fun o => { o with kills := o.kills + 1 }))
              pr.id = some (.projectile pr2) := by
            rw [findEntity_updateEntity_ne hownepr
              (fun e he => by
                rw [entityId_mapPlayer_kills]
                exact findEntity_some_id he)]
            exact hfind2pr
          dsimp only
          by_cases hdied : pl.health - pr.damage ≤ 0
          case neg =>
            rw [if_neg hdied]
            exact ⟨A12, rfl, hrec2⟩
          rw [if_pos hdied]
          by_cases howner : pr.ownerID ≠ ""
          case neg =>
            rw [if_neg howner]
            exact ⟨A12, rfl, hrec2⟩
          rw [if_pos howner]
          by_cases hk : (roster.any fun ps => ps.entityID == ow.id) = true
          · rw [if_pos hk, if_pos hk]
            by_cases hv : (roster.any fun ps => ps.entityID == pl.id) = true
            · rw [if_pos hv]
              refine ⟨?_, rfl, ?_⟩
              · refine forall₂_trans entStep_trans A12
                  (forall₂_trans entStep_trans hkillstep
                    (updateEntity_rel entStep_refl
                      (fun e _ => entStep_mapPlayer_deaths e)))
              · refine ⟨pr2, ?_, by rw [hpr2]; simp⟩
                rw [findEntity_updateEntity_ne (Ne.symm hne)
                  (fun e he => by
                    rw [entityId_mapPlayer_deaths]
                    exact findEntity_some_id he)]
                exact hkillfind
            · rw [if_neg hv]
              exact ⟨forall₂_trans entStep_trans A12 hkillstep, rfl,
                ⟨pr2, hkillfind, by rw [hpr2]; simp⟩⟩
          · rw [if_neg hk, if_neg hk]
            by_cases hv : (roster.any fun ps => ps.entityID == pl.id) = true
            · rw [if_pos hv]
              refine ⟨?_, rfl, ?_⟩
              · exact forall₂_trans entStep_trans A12
                  (updateEntity_rel entStep_refl
                    (fun e _ => entStep_mapPlayer_deaths e))
              · refine ⟨pr2, ?_, by rw [hpr2]; simp⟩
                rw [findEntity_updateEntity_ne (Ne.symm hne)
                  (fun e he => by
                    rw [entityId_mapPlayer_deaths]
                    exact findEntity_some_id he)]
                exact hfind2pr
            · rw [if_neg hv]
              exact ⟨A12, rfl, hrec2⟩

theorem resolvePair_some {eA eB : Entity} {pr : ProjectileEntity}
    {pl : PlayerEntity} (h : resolvePair eA eB = some (pr, pl)) :
    (eA = .projectile pr ∧ eB = .player pl) ∨
    (eA = .player pl ∧ eB = .projectile pr) := by
  cases eA with
  | projectile q =>
      cases eB with
      | player p =>
          simp only [resolvePair, Option.some.injEq, Prod.mk.injEq] at h
          exact Or.inl ⟨by rw [h.1], by rw [h.2]⟩
      | projectile _ => simp [resolvePair] at h
      | effect _ => simp [resolvePair] at h
  | player p =>
      cases eB with
      | projectile q =>
          simp only [resolvePair, Option.some.injEq, Prod.mk.injEq] at h
          exact Or.inr ⟨by rw [h.2], by rw [h.1]⟩
      | player _ => simp [resolvePair] at h
      | effect _ => simp [resolvePair] at h
  | effect _ => cases eB <;> simp [resolvePair] at h

/-- Case analysis of one pair of the double loop: either nothing happens, or
a projectile hits an alive player that is not yet in its hit list and is not
protected by the friendly fire rule, and the step is handleCollision after
recording the collision. -/
theorem pairStep_cases (ff : Bool) (roster : List PlayerState)
    (st : PassState) (iA iB : String) :
    pairStep ff roster st iA iB = st ∨
    ∃ (pr : ProjectileEntity) (pl : PlayerEntity),
      findEntity st.entities pr.id = some (.projectile pr) ∧
      findEntity st.entities pl.id = some (.player pl) ∧
      pl.isAlive = true ∧
      pl.id ∉ pr.hitEntities ∧
      isFriendlyFireBlocked st.entities ff pr pl = false ∧
      pairStep ff roster st iA iB =
        handleCollision roster
          { st with collisions := st.collisions ++
              [{ entityA := pr.id, entityB := pl.id,
                 position := ⟨(pr.position.x + pl.position.x) / 2,
                              (pr.position.y + pl.position.y) / 2⟩ }] } pr pl := by
  unfold pairStep
  cases hA : findEntity st.entities iA with
  | none => exact Or.inl rfl
  | some eA =>
      cases hB : findEntity st.entities iB with
      | none => exact Or.inl rfl
      | some eB =>
          dsimp only
          cases hR : resolvePair eA eB with
          | none => exact Or.inl rfl
          | some prpl =>
              obtain ⟨pr, pl⟩ := prpl
              have hfpr : findEntity st.entities pr.id =
                  some (.projectile pr) := by
                rcases resolvePair_some hR with ⟨hA2, _⟩ | ⟨_, hB2⟩
                · rw [hA2] at hA
                  have hid : entityId (Entity.projectile pr) = iA :=
                    findEntity_some_id hA
                  rw [← hid] at hA
                  exact hA
                · rw [hB2] at hB
                  have hid : entityId (Entity.projectile pr) = iB :=
                    findEntity_some_id hB
                  rw [← hid] at hB
                  exact hB
              have hfpl : findEntity st.entities pl.id =
                  some (.player pl) := by
                rcases resolvePair_some hR with ⟨_, hB2⟩ | ⟨hA2, _⟩
                · rw [hB2] at hB
                  have hid : entityId (Entity.player pl) = iB :=
                    findEntity_some_id hB
                  rw [← hid] at hB
                  exact hB
                · rw [hA2] at hA
                  have hid : entityId (Entity.player pl) = iA :=
                    findEntity_some_id hA
                  rw [← hid] at hA
                  exact hA
              dsimp only
              by_cases halive : pl.isAlive = true
              case neg => exact Or.inl (by rw [if_neg halive])
              rw [if_pos halive]
              by_cases hmem : pl.id ∈ pr.hitEntities
              case pos => exact Or.inl (by rw [if_pos hmem])
              rw [if_neg hmem]
              by_cases hffb : isFriendlyFireBlocked st.entities ff pr pl = true
              case pos => exact Or.inl (by rw [if_pos hffb])
              rw [if_neg hffb]
              by_cases hdist :
                  (pr.position.x - pl.position.x) *
                      (pr.position.x - pl.position.x) +
                    (pr.position.y - pl.position.y) *
                      (pr.position.y - pl.position.y) <
                  (projectileRadius + playerRadius) *
                    (projectileRadius + playerRadius)
              case neg => exact Or.inl (by rw [if_neg hdist])
              rw [if_pos hdist]
              exact Or.inr ⟨pr, pl, hfpr, hfpl, halive, hmem,
                Bool.not_eq_true _ ▸ hffb, rfl⟩

/-- One pair of the double loop evolves the entity mapping along entStep, and
either leaves the collision list alone or appends exactly one record whose
projectile did not yet contain the player in its hit list and afterwards
does. -/
theorem pairStep_spec (ff : Bool) (roster : List PlayerState)
    (st : PassState) (iA iB : String) :
    List.Forall₂ entStep st.entities (pairStep ff roster st iA iB).entities ∧
    ((pairStep ff roster st iA iB).collisions = st.collisions ∨
     ∃ (pr : ProjectileEntity) (pl : PlayerEntity),
       findEntity st.entities pr.id = some (.projectile pr) ∧
       pl.id ∉ pr.hitEntities ∧
       (pairStep ff roster st iA iB).collisions =
         st.collisions ++
           [{ entityA := pr.id, entityB := pl.id,
              position := ⟨(pr.position.x + pl.position.x) / 2,
                           (pr.position.y + pl.position.y) / 2⟩ }] ∧
       hitRecorded (pairStep ff roster st iA iB).entities pr.id pl.id) := by
  rcases pairStep_cases ff roster st iA iB with h | h
  · rw [h]
    exact ⟨List.forall₂_same.2 (fun e _ => entStep_refl e), Or.inl rfl⟩
  · obtain ⟨pr, pl, hfpr, hfpl, halive, hmem, hffb, heq⟩ := h
    obtain ⟨F, C, R⟩ := handleCollision_spec roster
      { st with collisions := st.collisions ++
          [{ entityA := pr.id, entityB := pl.id,
             position := ⟨(pr.position.x + pl.position.x) / 2,
                          (pr.position.y + pl.position.y) / 2⟩ }] }
      pr pl hfpr hfpl halive
    rw [heq]
    exact ⟨F, Or.inr ⟨pr, pl, hfpr, hmem, C, R⟩⟩

theorem foldPass_entStep (ff : Bool) (roster : List PlayerState)
    (pairs : List (String × String)) :
    ∀ st : PassState,
      List.Forall₂ entStep st.entities
        ((pairs.foldl (fun s p => pairStep ff roster s p.1 p.2) st).entities) := by
  induction pairs with
  | nil => exact fun st => List.forall₂_same.2 (fun e _ => entStep_refl e)
  | cons p pairs ih =>
      intro st
      rw [List.foldl_cons]
      exact forall₂_trans entStep_trans
        (pairStep_spec ff roster st p.1 p.2).1
        (ih (pairStep ff roster st p.1 p.2))

/-- A whole detectCollisions pass evolves every entity along entStep, in
place: same length, same ids, teams and positions untouched, hit lists only
growing, the alive flag only falling, the health invariant preserved. -/
theorem detectCollisions_entStep (r : Room) :
    List.Forall₂ entStep r.entities ((detectCollisions r).1).entities :=
  foldPass_entStep r.friendlyFire r.players
    (listPairs (r.entities.map entityId))
    { entities := r.entities, scores := r.scores, collisions := [] }

/-! ## Claim theorems: health floor and revival (C2) -/

theorem tickPlayer_inv (spawn : SpawnOracle) (dt : ℚ) (p : PlayerEntity)
    (h : playerInv p) : playerInv (tickPlayer spawn dt p) := by
  obtain ⟨hm, hh, hiff⟩ := h
  unfold tickPlayer
  split_ifs with halive hresp
  · exact ⟨hm, hh, hiff⟩
  · refine ⟨hm, ?_, ?_⟩
    · show (0 : Int) ≤ p.maxHealth
      omega
    · show true = true ↔ 0 < p.maxHealth
      exact ⟨fun _ => hm, fun _ => rfl⟩
  · exact ⟨hm, hh, hiff⟩

theorem updateEntities_inv (spawn : SpawnOracle) (dt : ℚ) (es : List Entity)
    (h : roomPlayersInv es) : roomPlayersInv (updateEntities spawn dt es) := by
  intro e2 he2
  rw [updateEntities, List.mem_filterMap] at he2
  obtain ⟨e, he, hstep⟩ := he2
  cases e with
  | player p =>
      simp only [stepEntity] at hstep
      cases Option.some.inj hstep
      exact tickPlayer_inv spawn dt p (h _ he)
  | projectile q =>
      simp only [stepEntity] at hstep
      split_ifs at hstep
      cases Option.some.inj hstep
      exact trivial
  | effect f =>
      simp only [stepEntity] at hstep
      cases Option.some.inj hstep
      exact trivial

theorem forall₂_entStep_inv {es es2 : List Entity}
    (h : List.Forall₂ entStep es es2) (hinv : roomPlayersInv es) :
    roomPlayersInv es2 := by
  intro e2 he2
  cases e2 with
  | projectile _ => exact trivial
  | effect _ => exact trivial
  | player p2 =>
      obtain ⟨e, he, hstep⟩ := forall₂_mem_right h _ he2
      cases e with
      | player p => exact hstep.2.2.2.2.2.2.2 (hinv _ he)
      | projectile _ => exact absurd hstep (by simp [entStep])
      | effect _ => exact absurd hstep (by simp [entStep])

/-- Claim C2: across one whole tick (entity integration plus the collision
pass), every player keeps nonnegative health with the alive flag false
exactly when health is zero (damage that would go below zero is clamped); a
dead player becomes alive again exactly when its respawn countdown, after
this tick, is at most zero, and then its health is restored to max health at
a fresh spawn point with zero velocity; and a collision pass never revives
anyone: a player alive after the pass was alive before it. -/
theorem health_floor_and_respawn (spawn : SpawnOracle) (dt : ℚ) (r : Room)
    (hinv : roomPlayersInv r.entities) :
    roomPlayersInv ((roomUpdate spawn dt r).1).entities ∧
    (∀ p : PlayerEntity, p.isAlive = false →
      (((tickPlayer spawn dt p).isAlive = true) ↔
        p.respawnTime - truncToZero dt ≤ 0) ∧
      ((tickPlayer spawn dt p).isAlive = true →
        (tickPlayer spawn dt p).health = p.maxHealth ∧
        (tickPlayer spawn dt p).position = spawn p.id ∧
        (tickPlayer spawn dt p).velocity = ⟨0, 0⟩)) ∧
    (∀ p2 : PlayerEntity, Entity.player p2 ∈ ((detectCollisions r).1).entities →
      p2.isAlive = true →
      ∃ p : PlayerEntity, Entity.player p ∈ r.entities ∧ p.id = p2.id ∧
        p.isAlive = true) := by
  refine ⟨?_, ?_, ?_⟩
  · unfold roomUpdate
    exact forall₂_entStep_inv
      (detectCollisions_entStep
        { r with frameID := r.frameID + 1
                 entities := updateEntities spawn dt r.entities })
      (updateEntities_inv spawn dt r.entities hinv)
  · intro p hdead
    have hcond : ¬ (p.isAlive = true) := by rw [hdead]; simp
    constructor
    · unfold tickPlayer
      rw [if_neg hcond]
      by_cases hresp : p.respawnTime - truncToZero dt ≤ 0
      · rw [if_pos hresp]
        exact iff_of_true rfl hresp
      · rw [if_neg hresp]
        exact iff_of_false hcond hresp
    · intro halive2
      unfold tickPlayer at halive2 ⊢
      rw [if_neg hcond] at halive2 ⊢
      by_cases hresp : p.respawnTime - truncToZero dt ≤ 0
      · rw [if_pos hresp]
        exact ⟨rfl, rfl, rfl⟩
      · rw [if_neg hresp] at halive2
        exact absurd halive2 hcond
  · intro p2 hmem halive2
    obtain ⟨e, he, hstep⟩ :=
      forall₂_mem_right (detectCollisions_entStep r) _ hmem
    cases e with
    | player p => exact ⟨p, he, (hstep.1).symm, hstep.2.2.2.2.2.2.1 halive2⟩
    | projectile _ => exact absurd hstep (by simp [entStep])
    | effect _ => exact absurd hstep (by simp [entStep])

/-- Witness for C2: the concrete single-hit room satisfies the player
invariant, and still does after one whole tick. -/
theorem health_floor_and_respawn_witness :
    roomPlayersInv roomC1.entities ∧
    roomPlayersInv ((roomUpdate spawnO 1 roomC1).1).entities :=
  ⟨by with_unfolding_all decide,
   (health_floor_and_respawn spawnO 1 roomC1 (by with_unfolding_all decide)).1⟩

/-! ## Claim theorems: projectile lifetime and multi-hit (C10) -/

/-- Claim C10: a collision pass never removes an entity (the id sequence of
the mapping is untouched, hits included); updateEntities removes a projectile
exactly when its decremented lifetime is at most zero and never removes a
player; and consequently one ordinary (basic shot, non-piercing) projectile
can hit several distinct players, shown concretely: in one pass it hits two
players, damages both, accumulates both in its hit list and stays in the
mapping. -/
theorem projectile_lifetime_removal (r : Room) (spawn : SpawnOracle) (dt : ℚ) :
    ((detectCollisions r).1).entities.map entityId = r.entities.map entityId ∧
    (∀ q : ProjectileEntity,
       stepEntity spawn dt (.projectile q) =
         (if q.lifeTime - dt ≤ 0 then Option.none
          else some (.projectile
            { q with
              position := ⟨q.position.x + q.velocity.x * dt,
                           q.position.y + q.velocity.y * dt⟩
              lifeTime := q.lifeTime - dt }))) ∧
    (∀ p : PlayerEntity,
       stepEntity spawn dt (.player p) = some (.player (tickPlayer spawn dt p))) ∧
    ((detectCollisions roomC10).2.map (fun c => (c.entityA, c.entityB)) =
       [("prX", "p1E"), ("prX", "p2E")] ∧
     findEntity ((detectCollisions roomC10).1).entities "prX" =
       some (.projectile { projC10 with hitEntities := ["p1E", "p2E"] }) ∧
     findEntity ((detectCollisions roomC10).1).entities "p1E" =
       some (.player { playerC10a with health := 90 }) ∧
     findEntity ((detectCollisions roomC10).1).entities "p2E" =
       some (.player { playerC10b with health := 90 })) := by
  refine ⟨forall₂_map_entityId (detectCollisions_entStep r),
    fun q => rfl, fun p => rfl, ?_⟩
  with_unfolding_all decide

/-! ## Claim theorems: a projectile hits each player at most once (C1) -/

theorem foldPass_no_rehit (ff : Bool) (roster : List PlayerState)
    (projId pId : String) (pairs : List (String × String)) :
    ∀ st : PassState,
      hitRecorded st.entities projId pId →
      (∀ c ∈ st.collisions, ¬(c.entityA = projId ∧ c.entityB = pId)) →
      hitRecorded
        ((pairs.foldl (fun s p => pairStep ff roster s p.1 p.2) st).entities)
        projId pId ∧
      (∀ c ∈ (pairs.foldl (fun s p => pairStep ff roster s p.1 p.2) st).collisions,
        ¬(c.entityA = projId ∧ c.entityB = pId)) := by
  induction pairs with
  | nil => exact fun st h1 h2 => ⟨h1, h2⟩
  | cons p pairs ih =>
      intro st h1 h2
      rw [List.foldl_cons]
      apply ih
      · exact hitRecorded_mono (pairStep_spec ff roster st p.1 p.2).1 h1
      · rcases (pairStep_spec ff roster st p.1 p.2).2 with
          hc | ⟨pr, pl, hfpr, hnm, hceq, _⟩
        · rw [hc]
          exact h2
        · rw [hceq]
          intro c hc2
          rcases List.mem_append.1 hc2 with hc2 | hc2
          · exact h2 c hc2
          · rw [List.mem_singleton.1 hc2]
            rintro ⟨hA, hB⟩
            have hA2 : pr.id = projId := hA
            have hB2 : pl.id = pId := hB
            obtain ⟨q, hq2, hqmem⟩ := h1
            rw [← hA2, hfpr] at hq2
            have hqpr : q = pr := by
              have h3 := Option.some.inj hq2
              cases h3
              rfl
            rw [hqpr] at hqmem
            rw [← hB2] at hqmem
            exact hnm hqmem

theorem foldPass_records (ff : Bool) (roster : List PlayerState)
    (pairs : List (String × String)) :
    ∀ st : PassState,
      (∀ c ∈ st.collisions, hitRecorded st.entities c.entityA c.entityB) →
      ∀ c ∈ (pairs.foldl (fun s p => pairStep ff roster s p.1 p.2) st).collisions,
        hitRecorded
          ((pairs.foldl (fun s p => pairStep ff roster s p.1 p.2) st).entities)
          c.entityA c.entityB := by
  induction pairs with
  | nil => exact fun st h => h
  | cons p pairs ih =>
      intro st h
      rw [List.foldl_cons]
      apply ih
      intro c hc
      rcases (pairStep_spec ff roster st p.1 p.2).2 with
        hceq | ⟨pr, pl, hfpr, hnm, hceq, hrec⟩
      · rw [hceq] at hc
        exact hitRecorded_mono (pairStep_spec ff roster st p.1 p.2).1 (h c hc)
      · rw [hceq] at hc
        rcases List.mem_append.1 hc with hc | hc
        · exact hitRecorded_mono (pairStep_spec ff roster st p.1 p.2).1 (h c hc)
        · rw [List.mem_singleton.1 hc]
          exact hrec

/-- Claim C1: once a player id is in the hit list of a projectile, a
collision pass never emits another damage application of that projectile to
that player (every hit first checks hit list membership); every damage
application the pass does emit is recorded in the hit list of its projectile
afterwards; membership in the hit list persists across the pass; and, in the
concrete two-tick scenario in which the projectile stays intersecting the
same player, the first tick applies exactly one damage application and the
second tick applies none, leaving health reduced exactly once. -/
theorem projectile_single_hit (r : Room) (projId pId : String)
    (q : ProjectileEntity)
    (hq : findEntity r.entities projId = some (.projectile q))
    (hmem : pId ∈ q.hitEntities) :
    (∀ c ∈ (detectCollisions r).2, ¬(c.entityA = projId ∧ c.entityB = pId)) ∧
    (∀ c ∈ (detectCollisions r).2,
       hitRecorded ((detectCollisions r).1).entities c.entityA c.entityB) ∧
    hitRecorded ((detectCollisions r).1).entities projId pId ∧
    ((roomUpdate spawnO (1/2) roomC1).2.map (fun c => (c.entityA, c.entityB)) =
       [("proj1", "victimE")] ∧
     findEntity ((roomUpdate spawnO (1/2) roomC1).1).entities "victimE" =
       some (.player { victimC1 with health := 90 }) ∧
     (roomUpdate spawnO (1/2) ((roomUpdate spawnO (1/2) roomC1).1)).2 = [] ∧
     findEntity
       ((roomUpdate spawnO (1/2) ((roomUpdate spawnO (1/2) roomC1).1)).1).entities
       "victimE" = some (.player { victimC1 with health := 90 })) := by
  have hinit : hitRecorded r.entities projId pId := ⟨q, hq, hmem⟩
  have h := foldPass_no_rehit r.friendlyFire r.players projId pId
    (listPairs (r.entities.map entityId))
    { entities := r.entities, scores := r.scores, collisions := [] }
    hinit (by intro c hc; simp at hc)
  refine ⟨h.2, ?_, h.1, ?_⟩
  · exact foldPass_records r.friendlyFire r.players
      (listPairs (r.entities.map entityId))
      { entities := r.entities, scores := r.scores, collisions := [] }
      (by intro c hc; simp at hc)
  · with_unfolding_all decide

/-- Witness for C1: in the concrete room in which the projectile has already
hit the victim, the next pass emits no damage application to the victim. -/
theorem projectile_single_hit_witness :
    (∀ c ∈ (detectCollisions roomC1hit).2,
       ¬(c.entityA = "proj1" ∧ c.entityB = "victimE")) ∧
    hitRecorded ((detectCollisions roomC1hit).1).entities "proj1" "victimE" := by
  have h := projectile_single_hit roomC1hit "proj1" "victimE"
    { projC1 with hitEntities := ["victimE"] }
    (by with_unfolding_all decide) (by decide)
  exact ⟨h.1, h.2.2.1⟩

/-! ## Claim theorems: friendly fire (C4) -/

/-- handleCollision leaves the health and team of every player other than
the struck one untouched (only kill and death counters can move). -/
theorem handleCollision_other (roster : List PlayerState) (st : PassState)
    (pr : ProjectileEntity) (pl : PlayerEntity) (j : String)
    (v2 : PlayerEntity)
    (hpr : findEntity st.entities pr.id = some (.projectile pr))
    (hpl : findEntity st.entities pl.id = some (.player pl))
    (hv2 : findEntity st.entities j = some (.player v2))
    (hjne : j ≠ pl.id) :
    ∃ v3 : PlayerEntity,
      findEntity (handleCollision roster st pr pl).entities j =
        some (.player v3) ∧
      v3.health = v2.health ∧ v3.team = v2.team := by
  have hne : pr.id ≠ pl.id := by
    intro h
    rw [h, hpl] at hpr
    simp at hpr
  have hprj : pr.id ≠ j := by
    intro h
    rw [h, hv2] at hpr
    simp at hpr
  simp only [handleCollision]
  set pr2 : ProjectileEntity :=
    { pr with hitEntities := pr.hitEntities ++ [pl.id] } with hpr2
  set es1 := updateEntity st.entities pr.id (fun _ => Entity.projectile pr2)
    with hes1
  have hfid1 : ∀ e, findEntity st.entities pr.id = some e →
      entityId ((fun _ => Entity.projectile pr2) e) = pr.id := by
    intro e he; rfl
  have hfind1v : findEntity es1 j = some (.player v2) := by
    rw [hes1, findEntity_updateEntity_ne hprj hfid1]
    exact hv2
  have hfind1pl : findEntity es1 pl.id = some (.player pl) := by
    rw [hes1, findEntity_updateEntity_ne hne hfid1]
    exact hpl
  set es2 := updateEntity es1 pl.id
    (fun _ => Entity.player (damagedPlayer pl pr.damage)) with hes2
  have hfid2 : ∀ e, findEntity es1 pl.id = some e →
      entityId ((fun _ => Entity.player (damagedPlayer pl pr.damage)) e) =
        pl.id := by
    intro e he
    simpa [entityId] using damagedPlayer_id pl pr.damage
  have hfind2v : findEntity es2 j = some (.player v2) := by
    rw [hes2, findEntity_updateEntity_ne (Ne.symm hjne) hfid2]
    exact hfind1v
  cases hm : findEntity es2 pr.ownerID with
  | none => split_ifs <;> exact ⟨v2, hfind2v, rfl, rfl⟩
  | some owner =>
      cases owner with
      | projectile q2 => split_ifs <;> exact ⟨v2, hfind2v, rfl, rfl⟩
      | effect f2 => split_ifs <;> exact ⟨v2, hfind2v, rfl, rfl⟩
      | player ow =>
          have hkv : ∀ es : List Entity, findEntity es j = some (.player v2) →
              ∃ v3 : PlayerEntity,
                findEntity (updateEntity es ow.id
                  (mapPlayer fun o => { o with kills := o.kills + 1 })) j =
                  some (.player v3) ∧
                v3.health = v2.health ∧ v3.team = v2.team := by
            intro es hfv
            by_cases howj : ow.id = j
            · rw [howj]
              refine ⟨{ v2 with kills := v2.kills + 1 }, ?_, rfl, rfl⟩
              have := findEntity_updateEntity_self hfv
                (by rw [entityId_mapPlayer_kills]; exact findEntity_some_id hfv)
              simpa [mapPlayer] using this
            · refine ⟨v2, ?_, rfl, rfl⟩
              rw [findEntity_updateEntity_ne howj
                (fun e he => by
                  rw [entityId_mapPlayer_kills]
                  exact findEntity_some_id he)]
              exact hfv
          have hdv : ∀ es : List Entity, findEntity es j = some (.player v2) →
              findEntity (updateEntity es pl.id
                (mapPlayer fun u => { u with deaths := u.deaths + 1 })) j =
                some (.player v2) := by
            intro es hfv
            rw [findEntity_updateEntity_ne (Ne.symm hjne)
              (fun e he => by
                rw [entityId_mapPlayer_deaths]
                exact findEntity_some_id he)]
            exact hfv
          dsimp only
          by_cases hdied : pl.health - pr.damage ≤ 0
          case neg =>
            rw [if_neg hdied]
            exact ⟨v2, hfind2v, rfl, rfl⟩
          rw [if_pos hdied]
          by_cases howner : pr.ownerID ≠ ""
          case neg =>
            rw [if_neg howner]
            exact ⟨v2, hfind2v, rfl, rfl⟩
          rw [if_pos howner]
          by_cases hk : (roster.any fun ps => ps.entityID == ow.id) = true
          · rw [if_pos hk, if_pos hk]
            obtain ⟨v3, hv3, hh3, ht3⟩ := hkv es2 hfind2v
            by_cases hv4 : (roster.any fun ps => ps.entityID == pl.id) = true
            · rw [if_pos hv4]
              refine ⟨v3, ?_, hh3, ht3⟩
              rw [findEntity_updateEntity_ne (Ne.symm hjne)
                (fun e he => by
                  rw [entityId_mapPlayer_deaths]
                  exact findEntity_some_id he)]
              exact hv3
            · rw [if_neg hv4]
              exact ⟨v3, hv3, hh3, ht3⟩
          · rw [if_neg hk, if_neg hk]
            by_cases hv4 : (roster.any fun ps => ps.entityID == pl.id) = true
            · rw [if_pos hv4]
              exact ⟨v2, hdv es2 hfind2v, rfl, rfl⟩
            · rw [if_neg hv4]
              exact ⟨v2, hfind2v, rfl, rfl⟩

/-- With friendly fire disabled, a pair step never changes the health (or
team) of a player all of whose potential attackers are teammates: every
projectile of the mapping is owned by a player on that same, non-none team. -/
theorem pairStep_team_protected (roster : List PlayerState) (vId : String)
    (v : PlayerEntity) (rents : List Entity)
    (hteam : v.team ≠ Team.none)
    (howners : ∀ e ∈ rents, ownerOnTeam rents v.team e = true)
    (st : PassState) (iA iB : String)
    (F : List.Forall₂ entStep rents st.entities)
    (hv2x : ∃ v2 : PlayerEntity,
      findEntity st.entities vId = some (.player v2) ∧
      v2.health = v.health ∧ v2.team = v.team) :
    ∃ v2 : PlayerEntity,
      findEntity (pairStep false roster st iA iB).entities vId =
        some (.player v2) ∧ v2.health = v.health ∧ v2.team = v.team := by
  obtain ⟨v2, hv2, hh2, ht2⟩ := hv2x
  rcases pairStep_cases false roster st iA iB with h | h
  · rw [h]
    exact ⟨v2, hv2, hh2, ht2⟩
  · obtain ⟨pr, pl, hfpr, hfpl, halive, hnm, hffb, heq⟩ := h
    by_cases hplv : pl.id = vId
    · exfalso
      rw [hplv, hv2] at hfpl
      have h4 := Option.some.inj hfpl
      injection h4 with h5
      have hplteam : pl.team = v.team := by rw [← h5, ht2]
      obtain ⟨e0, hq0, hstepq⟩ := findEntity_forall₂_back F hfpr
      cases e0 with
      | projectile q0 =>
          have hown : pr.ownerID = q0.ownerID := hstepq.2.1
          have hmem0 : Entity.projectile q0 ∈ rents :=
            List.mem_of_find?_eq_some hq0
          have howq := howners _ hmem0
          simp only [ownerOnTeam] at howq
          cases hmo : findEntity rents q0.ownerID with
          | none =>
              rw [hmo] at howq
              simp at howq
          | some oe =>
              cases oe with
              | player o =>
                  rw [hmo] at howq
                  simp at howq
                  obtain ⟨hno, hot⟩ := howq
                  obtain ⟨o2e, ho2, hstepo⟩ := findEntity_forall₂ F hmo
                  cases o2e with
                  | player o2 =>
                      have ho2t : o2.team = v.team := by
                        rw [hstepo.2.2.1, hot]
                      unfold isFriendlyFireBlocked at hffb
                      rw [hown, if_pos hno, ho2] at hffb
                      simp [ho2t, hplteam, hteam] at hffb
                  | projectile _ => exact absurd hstepo (by simp [entStep])
                  | effect _ => exact absurd hstepo (by simp [entStep])
              | projectile _ =>
                  rw [hmo] at howq
                  simp at howq
              | effect _ =>
                  rw [hmo] at howq
                  simp at howq
      | player _ => exact absurd hstepq (by simp [entStep])
      | effect _ => exact absurd hstepq (by simp [entStep])
    · rw [heq]
      obtain ⟨v3, hv3, hh3, ht3⟩ := handleCollision_other roster
        { st with collisions := st.collisions ++
            [{ entityA := pr.id, entityB := pl.id,
               position := ⟨(pr.position.x + pl.position.x) / 2,
                            (pr.position.y + pl.position.y) / 2⟩ }] }
        pr pl vId v2 hfpr hfpl hv2 (fun hh => hplv hh.symm)
      exact ⟨v3, hv3, by rw [hh3, hh2], by rw [ht3, ht2]⟩

theorem foldPass_team_protected (roster : List PlayerState) (vId : String)
    (v : PlayerEntity) (rents : List Entity)
    (hteam : v.team ≠ Team.none)
    (howners : ∀ e ∈ rents, ownerOnTeam rents v.team e = true)
    (pairs : List (String × String)) :
    ∀ st : PassState,
      List.Forall₂ entStep rents st.entities →
      (∃ v2 : PlayerEntity,
        findEntity st.entities vId = some (.player v2) ∧
        v2.health = v.health ∧ v2.team = v.team) →
      ∃ v2 : PlayerEntity,
        findEntity
          ((pairs.foldl (fun s p => pairStep false roster s p.1 p.2) st).entities)
          vId = some (.player v2) ∧
        v2.health = v.health ∧ v2.team = v.team := by
  induction pairs with
  | nil => exact fun st F h => h
  | cons p pairs ih =>
      intro st F h
      rw [List.foldl_cons]
      exact ih _
        (forall₂_trans entStep_trans F (pairStep_spec false roster st p.1 p.2).1)
        (pairStep_team_protected roster vId v rents hteam howners st p.1 p.2 F h)

/-- Claim C4: with friendly fire disabled, a projectile owned by a teammate
(same non-none team) never reduces the health of the player in any collision
pass — stated for a room in which every projectile is teammate-owned, so the
health of the protected player is exactly preserved; and with friendly fire
enabled the same intersecting configuration does reduce the health of the
teammate, shown on the concrete red-team scenario (92 = 100 - 8 after the
pass, while the friendly fire disabled room leaves the victim untouched). -/
theorem friendly_fire_protection (r : Room) (vId : String) (v : PlayerEntity)
    (hff : r.friendlyFire = false)
    (hv : findEntity r.entities vId = some (.player v))
    (hteam : v.team ≠ Team.none)
    (howners : ∀ e ∈ r.entities, ownerOnTeam r.entities v.team e = true) :
    (∃ v2 : PlayerEntity,
       findEntity ((detectCollisions r).1).entities vId = some (.player v2) ∧
       v2.health = v.health) ∧
    (roomC4ff.friendlyFire = true ∧
     findEntity ((detectCollisions roomC4ff).1).entities "bE" =
       some (.player { victimC4 with health := 92 }) ∧
     roomC4.friendlyFire = false ∧
     findEntity ((detectCollisions roomC4).1).entities "bE" =
       some (.player victimC4)) := by
  constructor
  · unfold detectCollisions
    rw [hff]
    obtain ⟨v2, h1, h2, _⟩ := foldPass_team_protected r.players vId v
      r.entities hteam howners (listPairs (r.entities.map entityId))
      { entities := r.entities, scores := r.scores, collisions := [] }
      (List.forall₂_same.2 fun e _ => entStep_refl e) ⟨v, hv, rfl, rfl⟩
    exact ⟨v2, h1, h2⟩
  · refine ⟨rfl, ?_, rfl, ?_⟩ <;> with_unfolding_all decide

/-- Witness for C4: in the concrete red-team room with friendly fire off,
the victim keeps exactly its health across the pass. -/
theorem friendly_fire_protection_witness :
    ∃ v2 : PlayerEntity,
      findEntity ((detectCollisions roomC4).1).entities "bE" =
        some (.player v2) ∧ v2.health = victimC4.health :=
  (friendly_fire_protection roomC4 "bE" victimC4 rfl
    (by with_unfolding_all decide) (by decide)
    (by with_unfolding_all decide)).1

end PixelStorm
